import Mathlib

/-!
# Line counting across a directory: a shallow embedding of `main.cpp`

The program counts newline-delimited lines over every regular file of a
directory with one of three strategies, fanned out one task per file and
summed.  We embed the three single-file counters and the fan-out executors
over byte lists (`Content`), and prove the spec's properties about them.

Conventions of the embedding:

* a file's content is the list of its bytes, one `Nat` (0–255) per byte;
  the newline byte `'\n'` is `10`, the NUL byte `'\0'` is `0`;
* the filesystem is a map from paths to `Option Content`; `none` models a
  path that cannot be opened for reading.  An `std::ifstream` on such a
  path has `failbit` set from construction, so every extraction fails at
  once and the counters observe an empty byte stream (`readAll`);
* the buffered counter's `while (file.read(...))` loop is written with a
  fuel argument so that it stays structurally recursive; each loop
  iteration consumes at least `NCOUNT_BUFFER_SIZE ≥ 1` bytes, so fuel
  `content.length` is always sufficient (the fuel-exhausted base case is
  never reached before the short final read, and it carries the same
  final-read semantics, so every fuel value at least `length / BLOCK`
  computes the program's answer).
-/

/-- Byte content of a file: one `Nat` per byte. -/
abbrev Content := List Nat

/-- A filesystem path; the program treats paths as opaque identifiers. -/
abbrev FilePath := Nat

/-- The visible filesystem: `none` models a path that cannot be opened. -/
abbrev FileSystem := FilePath → Option Content

/-- The byte stream an `std::ifstream{path}` yields: the file's bytes, or the
empty stream when the open failed (the source never checks `is_open`; a
failed stream yields immediate end-of-input on every read). -/
def readAll (fs : FileSystem) (p : FilePath) : Content :=
  match fs p with
  | some c => c
  | none => []

/-- `#define NCOUNT_BUFFER_SIZE (1 * 1024 * 1024)` — 1 MiB block size. -/
def NCOUNT_BUFFER_SIZE : Nat := 1 * 1024 * 1024

/-- The `while (std::getline(file, line)) ++lines_count;` loop of
`count_lines_getline`, one byte at a time.  `started` records whether the
current `std::getline` call has already extracted characters: on `'\n'` the
call succeeds and a new call begins; at end of stream a call that has
extracted at least one character still succeeds once (the final partial
line), while a call that extracted nothing fails and ends the loop. -/
def getline_go : Bool → Content → Nat
  | started, [] => if started then 1 else 0
  | _, c :: rest => if c = 10 then 1 + getline_go false rest else getline_go true rest

/-- `count_lines_getline`: count successful `std::getline` calls. -/
def count_lines_getline (content : Content) : Nat :=
  getline_go false content

/-- `count_lines_ncount`: `std::count(istreambuf_iterator(file), end, '\n')`
— the number of newline bytes in the stream. -/
def count_lines_ncount (content : Content) : Nat :=
  content.count 10

/-- The statement `std::count(buffer.begin(), buffer.begin() + file.gcount(), '\n')`
after the final, short, read: the buffer then holds the `gcount` freshly
read bytes followed by stale bytes surviving from the previous iteration,
and only the first `gcount` positions are scanned. -/
def count_last_read (buffer : Content) (readBytes : Content) : Nat :=
  ((readBytes ++ buffer.drop readBytes.length).take readBytes.length).count 10

/-- The `while (file.read(buffer.data(), buffer.size()))` loop of
`count_buffered_ncount`.  A read succeeds exactly when a full
`NCOUNT_BUFFER_SIZE` bytes remain; it then overwrites the whole buffer and
the loop body counts newlines over `buffer.begin() .. buffer.end()`.  When
fewer bytes remain the read fails, the loop exits, and the final statement
scans the `gcount` valid bytes (`count_last_read`).  `fuel` bounds the
number of loop iterations; `content.length` is always enough. -/
def buffered_go : Nat → Content → Content → Nat
  | 0, buffer, remaining => count_last_read buffer remaining
  | fuel + 1, buffer, remaining =>
    if NCOUNT_BUFFER_SIZE ≤ remaining.length then
      (remaining.take NCOUNT_BUFFER_SIZE).count 10 +
        buffered_go fuel (remaining.take NCOUNT_BUFFER_SIZE) (remaining.drop NCOUNT_BUFFER_SIZE)
    else
      count_last_read buffer remaining

/-- `count_buffered_ncount`: block reads into a zero-initialised
`std::vector<char> buffer(NCOUNT_BUFFER_SIZE)`. -/
def count_buffered_ncount (content : Content) : Nat :=
  buffered_go content.length (List.replicate NCOUNT_BUFFER_SIZE 0) content

/-- The closed strategy set of the spec's data model. -/
inductive Strategy
  | GetlineScan
  | ByteStreamScan
  | BufferedBlockScan
deriving DecidableEq

/-- Dispatch a strategy to its single-file counter. -/
def runStrategy : Strategy → Content → Nat
  | .GetlineScan, c => count_lines_getline c
  | .ByteStreamScan, c => count_lines_ncount c
  | .BufferedBlockScan, c => count_buffered_ncount c

/-- The single-file count of strategy `s` at path `p`. -/
def countFile (fs : FileSystem) (s : Strategy) (p : FilePath) : Nat :=
  runStrategy s (readAll fs p)

/-- `count_getline_async`: launch one task per file (the list of futures, in
launch order), then fold `lines_count += future.get()` over it. -/
def count_getline_async (fs : FileSystem) (files : List FilePath) : Nat :=
  let futures := files.map fun file => count_lines_getline (readAll fs file)
  futures.foldl (fun lines_count r => lines_count + r) 0

/-- `count_ncount_async`: the same fan-out over `count_lines_ncount`. -/
def count_ncount_async (fs : FileSystem) (files : List FilePath) : Nat :=
  let futures := files.map fun file => count_lines_ncount (readAll fs file)
  futures.foldl (fun lines_count r => lines_count + r) 0

/-- `count_buffered_ncount_async`: the same fan-out over
`count_buffered_ncount`. -/
def count_buffered_ncount_async (fs : FileSystem) (files : List FilePath) : Nat :=
  let futures := files.map fun file => count_buffered_ncount (readAll fs file)
  futures.foldl (fun lines_count r => lines_count + r) 0

/-- The spec's `countAll(files, strategy)`: the strategy-indexed fan-out
executor, dispatching to the three `_async` functions of the source. -/
def countAll (fs : FileSystem) (files : List FilePath) : Strategy → Nat
  | .GetlineScan => count_getline_async fs files
  | .ByteStreamScan => count_ncount_async fs files
  | .BufferedBlockScan => count_buffered_ncount_async fs files

/-! ## Helper lemmas -/

/-- Folding `+` from `n` computes `n` plus the sum. -/
lemma foldl_add_eq (l : List Nat) (n : Nat) :
    l.foldl (fun lines_count r => lines_count + r) n = n + l.sum := by
  induction l generalizing n with
  | nil => simp
  | cons a t ih => simp [ih, Nat.add_assoc]

/-- The final short read scans exactly the bytes it read: the stale tail of
the buffer lies beyond the `take`, whatever it holds. -/
lemma count_last_read_eq (buffer readBytes : Content) :
    count_last_read buffer readBytes = readBytes.count 10 := by
  unfold count_last_read
  rw [List.take_left]

/-- The buffered loop counts exactly the newline bytes of the remaining
stream, for every fuel value and every (stale) buffer content. -/
lemma buffered_go_eq (fuel : Nat) (buffer remaining : Content) :
    buffered_go fuel buffer remaining = remaining.count 10 := by
  induction fuel generalizing buffer remaining with
  | zero => exact count_last_read_eq buffer remaining
  | succ fuel ih =>
    by_cases h : NCOUNT_BUFFER_SIZE ≤ remaining.length
    · have hsplit := List.take_append_drop NCOUNT_BUFFER_SIZE remaining
      calc buffered_go (fuel + 1) buffer remaining
          = (remaining.take NCOUNT_BUFFER_SIZE).count 10 +
              (remaining.drop NCOUNT_BUFFER_SIZE).count 10 := by
            simp [buffered_go, h, ih]
        _ = remaining.count 10 := by
            rw [← List.count_append, hsplit]
    · simp [buffered_go, h, count_last_read_eq]

/-- `count_buffered_ncount` counts the newline bytes of the file. -/
lemma count_buffered_eq (content : Content) :
    count_buffered_ncount content = content.count 10 :=
  buffered_go_eq content.length (List.replicate NCOUNT_BUFFER_SIZE 0) content

/-- The getline loop counts the newline bytes, plus one when the stream is
exhausted mid-line: when the remaining stream is empty that happens exactly
when the current call already extracted a character, and otherwise exactly
when the stream does not end with a newline byte. -/
lemma getline_go_eq (l : Content) (b : Bool) :
    getline_go b l =
      l.count 10 +
        (if l = [] then (if b then 1 else 0)
         else if l.getLast? = some 10 then 0 else 1) := by
  induction l generalizing b with
  | nil => simp [getline_go]
  | cons c t ih =>
    cases t with
    | nil =>
      by_cases hc : c = 10 <;>
        simp [getline_go, hc, List.count_cons]
    | cons d u =>
      have hstep : getline_go b (c :: d :: u) =
          if c = 10 then 1 + getline_go false (d :: u) else getline_go true (d :: u) := rfl
      by_cases hc : c = 10
      · subst hc
        rw [hstep, if_pos rfl, ih false, List.count_cons_self,
          List.getLast?_cons_cons, if_neg (List.cons_ne_nil 10 (d :: u)),
          if_neg (List.cons_ne_nil d u)]
        omega
      · rw [hstep, if_neg hc, ih true,
          List.count_cons_of_ne (Ne.symm hc), List.getLast?_cons_cons,
          if_neg (List.cons_ne_nil c (d :: u)), if_neg (List.cons_ne_nil d u)]

/-- `count_lines_getline` counts the newline bytes, plus one exactly when
the content is non-empty and does not end with a newline byte. -/
lemma count_getline_eq (content : Content) :
    count_lines_getline content =
      content.count 10 +
        (if content = [] then 0
         else if content.getLast? = some 10 then 0 else 1) := by
  have h := getline_go_eq content false
  simpa [count_lines_getline] using h

/-- Every strategy yields 0 on the empty byte stream. -/
lemma runStrategy_nil (s : Strategy) : runStrategy s [] = 0 := by
  cases s <;> rfl

/-- The fan-out executor is the sum, in launch order, of the single-file
counts. -/
lemma countAll_eq_sum (fs : FileSystem) (files : List FilePath) (s : Strategy) :
    countAll fs files s = (files.map (countFile fs s)).sum := by
  cases s with
  | GetlineScan =>
    show (files.map fun file => count_lines_getline (readAll fs file)).foldl
        (fun lines_count r => lines_count + r) 0 = _
    rw [foldl_add_eq, Nat.zero_add]
    rfl
  | ByteStreamScan =>
    show (files.map fun file => count_lines_ncount (readAll fs file)).foldl
        (fun lines_count r => lines_count + r) 0 = _
    rw [foldl_add_eq, Nat.zero_add]
    rfl
  | BufferedBlockScan =>
    show (files.map fun file => count_buffered_ncount (readAll fs file)).foldl
        (fun lines_count r => lines_count + r) 0 = _
    rw [foldl_add_eq, Nat.zero_add]
    rfl

/-! ## Claims -/

/-- C1: for every sequence of file paths and every strategy `s`, the fan-out
executor `countAll files s` returns exactly the sum, taken in launch
(input-sequence) order, of the single-file count of `s` applied to each file
in the sequence; in particular for an empty sequence it returns 0. -/
theorem countAll_is_ordered_sum (fs : FileSystem) (files : List FilePath)
    (s : Strategy) :
    countAll fs files s = (files.map (countFile fs s)).sum ∧
    countAll fs [] s = 0 := by
  refine ⟨countAll_eq_sum fs files s, ?_⟩
  rw [countAll_eq_sum fs [] s]
  rfl

/-- C2: for every file whose content ends with the byte `'\n'` and contains
no embedded `'\0'` byte, the three single-file counters return the same
count. -/
theorem strategies_agree_on_wellformed (content : Content)
    (hend : content.getLast? = some 10) (hnul : ¬ 0 ∈ content) :
    count_lines_getline content = count_lines_ncount content ∧
    count_lines_ncount content = count_buffered_ncount content := by
  constructor
  · have hne : content ≠ [] := by
      intro h
      rw [h] at hend
      exact Option.noConfusion hend
    rw [count_getline_eq, if_neg hne, if_pos hend, count_lines_ncount,
      Nat.add_zero]
  · rw [count_lines_ncount, count_buffered_eq]

/-- Witness for C2 at the concrete content `"a\n"`. -/
theorem strategies_agree_on_wellformed_witness :
    ([97, 10] : Content).getLast? = some 10 ∧ ¬ 0 ∈ ([97, 10] : Content) ∧
    (count_lines_getline [97, 10] = count_lines_ncount [97, 10] ∧
     count_lines_ncount [97, 10] = count_buffered_ncount [97, 10]) :=
  ⟨by decide, by decide,
    strategies_agree_on_wellformed [97, 10] (by decide) (by decide)⟩

/-- C3 counterexample: on the content `"a\nb"` (bytes 97, 10, 98) the two
byte-counting strategies do NOT both return 2 — they return the number of
newline bytes, which is 1. -/
theorem byte_strategies_on_anb_not_two :
    ¬ (count_lines_ncount [97, 10, 98] = 2 ∧
       count_buffered_ncount [97, 10, 98] = 2) := by
  intro h
  have h1 := h.1
  rw [count_lines_ncount] at h1
  exact absurd h1 (by decide)

/-- C3 amended: for a file whose content is the three bytes `"a\nb"` (no
trailing newline), the two byte-counting strategies ByteStreamScan and
BufferedBlockScan each return a LineCount of 1. -/
theorem byte_strategies_on_anb_one :
    count_lines_ncount [97, 10, 98] = 1 ∧
    count_buffered_ncount [97, 10, 98] = 1 := by
  constructor
  · decide
  · rw [count_buffered_eq]
    decide

/-- C4: for every file whose size is an exact multiple of the 1 MiB block
size, BufferedBlockScan returns exactly the number of `'\n'` bytes of the
file — nothing at a block boundary is double-counted or dropped, and the
zero-length final read contributes nothing whatever stale bytes the buffer
holds. -/
theorem buffered_block_boundary (content : Content)
    (h : content.length % NCOUNT_BUFFER_SIZE = 0) :
    count_buffered_ncount content = content.count 10 ∧
    ∀ buffer : Content, count_last_read buffer [] = 0 :=
  ⟨count_buffered_eq content, fun buffer => count_last_read_eq buffer []⟩

/-- Witness for C4 at a file of exactly one full block of newline bytes. -/
theorem buffered_block_boundary_witness :
    (List.replicate NCOUNT_BUFFER_SIZE 10 : Content).length % NCOUNT_BUFFER_SIZE = 0 ∧
    count_buffered_ncount (List.replicate NCOUNT_BUFFER_SIZE 10) = NCOUNT_BUFFER_SIZE := by
  constructor
  · simp
  · have h := (buffered_block_boundary (List.replicate NCOUNT_BUFFER_SIZE 10) (by simp)).1
    simpa using h

/-- C5: for every file whose size is not a multiple of the block size, the
loop's result is the same whatever stale bytes the buffer holds, and the
final short read contributes exactly the number of `'\n'` bytes among the
`gcount` bytes actually read (the tail after the last full block), never
scanning the stale positions beyond `gcount`. -/
theorem buffered_stale_bytes_not_counted (content buffer : Content)
    (h : content.length % NCOUNT_BUFFER_SIZE ≠ 0) :
    buffered_go content.length buffer content = count_buffered_ncount content ∧
    count_last_read buffer
        (content.drop (content.length / NCOUNT_BUFFER_SIZE * NCOUNT_BUFFER_SIZE)) =
      (content.drop (content.length / NCOUNT_BUFFER_SIZE * NCOUNT_BUFFER_SIZE)).count 10 := by
  constructor
  · rw [buffered_go_eq, count_buffered_eq]
  · exact count_last_read_eq buffer _

/-- Witness for C5 at the content `"a\n"` against a stale buffer full of
newline bytes. -/
theorem buffered_stale_bytes_not_counted_witness :
    ([97, 10] : Content).length % NCOUNT_BUFFER_SIZE ≠ 0 ∧
    (buffered_go ([97, 10] : Content).length [10, 10, 10] [97, 10] =
       count_buffered_ncount [97, 10] ∧
     count_last_read [10, 10, 10]
         (([97, 10] : Content).drop
           (([97, 10] : Content).length / NCOUNT_BUFFER_SIZE * NCOUNT_BUFFER_SIZE)) =
       (([97, 10] : Content).drop
           (([97, 10] : Content).length / NCOUNT_BUFFER_SIZE * NCOUNT_BUFFER_SIZE)).count 10) :=
  ⟨by decide, buffered_stale_bytes_not_counted [97, 10] [10, 10, 10] (by decide)⟩

/-- C6: for every strategy `s` and disjoint file sequences `A` and `B`,
`countAll` over the concatenation of `A` and `B` equals
`countAll A s + countAll B s`. -/
theorem countAll_additive (fs : FileSystem) (A B : List FilePath)
    (s : Strategy) (hdisj : A.Disjoint B) :
    countAll fs (A ++ B) s = countAll fs A s + countAll fs B s := by
  rw [countAll_eq_sum, countAll_eq_sum, countAll_eq_sum, List.map_append,
    List.sum_append]

/-- Witness for C6 on the disjoint singleton sequences `[0]` and `[1]`. -/
theorem countAll_additive_witness :
    ([0] : List FilePath).Disjoint [1] ∧
    countAll (fun _ => some [10]) ([0] ++ [1]) Strategy.GetlineScan =
      countAll (fun _ => some [10]) [0] Strategy.GetlineScan +
        countAll (fun _ => some [10]) [1] Strategy.GetlineScan := by
  have hdisj : ([0] : List FilePath).Disjoint [1] := by
    intro a ha hb
    simp at ha hb
    subst ha
    exact absurd hb (by decide)
  exact ⟨hdisj, countAll_additive (fun _ => some [10]) [0] [1]
    Strategy.GetlineScan hdisj⟩

/-- C7: on an empty file (zero bytes) each of the three single-file counters
returns 0. -/
theorem empty_file_counts_zero :
    count_lines_getline [] = 0 ∧ count_lines_ncount [] = 0 ∧
    count_buffered_ncount [] = 0 :=
  ⟨rfl, rfl, rfl⟩

/-- C8: a path that cannot be opened (the stream yields immediate
end-of-input) contributes exactly 0 under every strategy, and removing it
from anywhere in the sequence leaves the aggregate unchanged (fail-soft). -/
theorem unopenable_file_fail_soft (fs : FileSystem) (p : FilePath)
    (h : fs p = none) (s : Strategy) (pre post : List FilePath) :
    countFile fs s p = 0 ∧
    countAll fs (pre ++ p :: post) s = countAll fs (pre ++ post) s := by
  have hzero : countFile fs s p = 0 := by
    rw [countFile, readAll, h]
    exact runStrategy_nil s
  refine ⟨hzero, ?_⟩
  rw [countAll_eq_sum, countAll_eq_sum, List.map_append, List.map_append,
    List.sum_append, List.sum_append, List.map_cons, List.sum_cons, hzero,
    Nat.zero_add]

/-- Witness for C8: path 0 is unopenable, paths 1 and 2 hold one line each. -/
theorem unopenable_file_fail_soft_witness :
    (fun q : FilePath => if q = 0 then none else some ([10] : Content)) 0 = none ∧
    (countFile (fun q : FilePath => if q = 0 then none else some ([10] : Content))
        Strategy.ByteStreamScan 0 = 0 ∧
     countAll (fun q : FilePath => if q = 0 then none else some ([10] : Content))
        ([1] ++ 0 :: [2]) Strategy.ByteStreamScan =
       countAll (fun q : FilePath => if q = 0 then none else some ([10] : Content))
        ([1] ++ [2]) Strategy.ByteStreamScan) :=
  ⟨rfl, unopenable_file_fail_soft
    (fun q : FilePath => if q = 0 then none else some ([10] : Content)) 0 rfl
    Strategy.ByteStreamScan [1] [2]⟩

/-- C9: GetlineScan returns the number of `'\n'` bytes of the content, plus
one more exactly when the content is non-empty and does not end with `'\n'`;
on the content `"a\nb"` GetlineScan returns 2 while the two byte-counting
strategies return 1. -/
theorem getline_counts_final_segment :
    (∀ content : Content,
      count_lines_getline content =
        content.count 10 +
          (if content ≠ [] ∧ content.getLast? ≠ some 10 then 1 else 0)) ∧
    count_lines_getline [97, 10, 98] = 2 ∧
    count_lines_ncount [97, 10, 98] = 1 ∧
    count_buffered_ncount [97, 10, 98] = 1 := by
  refine ⟨fun content => ?_, by decide, by decide, ?_⟩
  · rw [count_getline_eq]
    by_cases hne : content = []
    · simp [hne]
    · by_cases hend : content.getLast? = some 10
      · simp [hne, hend]
      · simp [hne, hend]
  · rw [count_buffered_eq]
    decide

/-- C10: for every file content, ByteStreamScan and BufferedBlockScan return
exactly the same count, namely the number of `'\n'` bytes of the content —
equivalent implementations with no well-formedness precondition. -/
theorem byte_strategies_equivalent (content : Content) :
    count_lines_ncount content = content.count 10 ∧
    count_buffered_ncount content = content.count 10 ∧
    count_lines_ncount content = count_buffered_ncount content := by
  refine ⟨rfl, count_buffered_eq content, ?_⟩
  rw [count_buffered_eq, count_lines_ncount]
